import Mathlib

/-!
Shallow embedding of the torneo-mus tournament core (direct-score variant):
the schedule generator (`generate_matches` in `src/main.py`), the match
result engine (`set_match_result` / `edit_match_result`) and the ranking
engine (`ranking_page`), together with proofs of the specification claims.

Machine integers are modelled as `Int` (Python integers are unbounded);
timestamps (`func.now()`) are modelled as an explicit `now : Nat` parameter;
database commits of `generate_matches` are modelled as an explicit list of
committed store states, in order.
-/

namespace TorneoMus

/-- `MatchStatus` enum from `src/models.py`. -/
inductive MatchStatus where
  | pending
  | in_progress
  | completed
deriving DecidableEq, Repr

/-- `Team` row from `src/models.py` (fields relevant to the core). -/
structure Team where
  id : Nat
  name : String
  player1 : String
  player2 : String
deriving DecidableEq, Repr

/-- `Match` row from `src/models.py`, with the `team1_games_won` /
`team2_games_won` integer columns added by the migration endpoint
(default 0).  `completed_at` is an optional timestamp. -/
structure MusMatch where
  id : Nat
  team1_id : Nat
  team2_id : Nat
  team1_games_won : Int
  team2_games_won : Int
  status : MatchStatus
  winner_id : Option Nat
  completed_at : Option Nat
deriving DecidableEq, Repr

/-- The entity store: teams and matches plus fresh-id counters. -/
structure Store where
  teams : List Team
  «matches» : List MusMatch
  nextTeamId : Nat
  nextMatchId : Nat
deriving DecidableEq, Repr

/-- Error taxonomy: HTTP 404 is `NotFoundError`, HTTP 400 is
`ValidationError`; both carry the `detail` message from the source. -/
inductive Err where
  | notFound (msg : String)
  | validation (msg : String)
deriving DecidableEq, Repr

/-- `itertools.combinations(teams, 2)`: all unordered pairs of distinct
list positions, in enumeration order. -/
def combinations2 : List Team → List (Team × Team)
  | [] => []
  | t :: ts => ts.map (fun u => (t, u)) ++ combinations2 ts

/-- `Match(team1_id=..., team2_id=...)` constructor with the model
defaults: status PENDING, no winner, counters 0, no completion time. -/
def mkMatch (mid t1 t2 : Nat) : MusMatch :=
  { id := mid, team1_id := t1, team2_id := t2,
    team1_games_won := 0, team2_games_won := 0,
    status := .pending, winner_id := none, completed_at := none }

/-- Insert one `Match` per pair, assigning sequential fresh ids. -/
def mkMatches : List (Team × Team) → Nat → List MusMatch
  | [], _ => []
  | p :: ps, mid => mkMatch mid p.1.id p.2.id :: mkMatches ps (mid + 1)

/-- `generate_matches` (`src/main.py:164-180`).  Returns the error, if any,
together with the list of committed store states in commit order: the
source commits once right after `db.query(Match).delete()` and a second
time after all pairs have been added. -/
def generate_matches (s : Store) : Option Err × List Store :=
  if s.teams.length < 2 then
    (some (.validation "Need at least 2 teams"), [])
  else
    let afterDelete : Store := { s with «matches» := [] }
    let ms := mkMatches (combinations2 s.teams) s.nextMatchId
    let afterInsert : Store :=
      { afterDelete with «matches» := ms, nextMatchId := s.nextMatchId + ms.length }
    (none, [afterDelete, afterInsert])

/-- The store state after `generate_matches` returns (the last committed
state, or the unchanged input when nothing was committed). -/
def genFinal (s : Store) : Store :=
  ((generate_matches s).2).getLastD s

/-- `db.query(Match).filter(Match.id == match_id).first()`. -/
def findMatch (ms : List MusMatch) (mid : Nat) : Option MusMatch :=
  ms.find? (fun m => m.id == mid)

/-- Replace the first match carrying the given id (session-object
mutation followed by commit). -/
def updateFirst (ms : List MusMatch) (mid : Nat) (m' : MusMatch) : List MusMatch :=
  match ms with
  | [] => []
  | x :: xs => if x.id == mid then m' :: xs else x :: updateFirst xs mid m'

/-- `set_match_result` (`src/main.py:204-235`).  Returns the error, if
any, and the resulting store (unchanged on every failure).  `now` models
`func.now()`. -/
def set_match_result (s : Store) (mid : Nat) (team1_games team2_games : Int)
    (now : Nat) : Option Err × Store :=
  match findMatch s.«matches» mid with
  | none => (some (.notFound "Match not found"), s)
  | some m =>
    if team1_games < 0 ∨ team2_games < 0 then
      (some (.validation "Games won cannot be negative"), s)
    else if team1_games = team2_games then
      (some (.validation "Cannot have a tie"), s)
    else if ¬ ((team1_games = 3 ∧ 0 ≤ team2_games ∧ team2_games ≤ 2) ∨
               (team2_games = 3 ∧ 0 ≤ team1_games ∧ team1_games ≤ 2)) then
      (some (.validation "One team must win 3 games, the other 0-2"), s)
    else
      let m' : MusMatch :=
        { m with team1_games_won := team1_games,
                 team2_games_won := team2_games,
                 status := .completed,
                 winner_id := some (if team1_games = 3 then m.team1_id else m.team2_id),
                 completed_at := some now }
      (none, { s with «matches» := updateFirst s.«matches» mid m' })

/-- `edit_match_result` (`src/main.py:238-268`): a verbatim copy of the
set-result body in the source. -/
def edit_match_result (s : Store) (mid : Nat) (team1_games team2_games : Int)
    (now : Nat) : Option Err × Store :=
  match findMatch s.«matches» mid with
  | none => (some (.notFound "Match not found"), s)
  | some m =>
    if team1_games < 0 ∨ team2_games < 0 then
      (some (.validation "Games won cannot be negative"), s)
    else if team1_games = team2_games then
      (some (.validation "Cannot have a tie"), s)
    else if ¬ ((team1_games = 3 ∧ 0 ≤ team2_games ∧ team2_games ≤ 2) ∨
               (team2_games = 3 ∧ 0 ≤ team1_games ∧ team1_games ≤ 2)) then
      (some (.validation "One team must win 3 games, the other 0-2"), s)
    else
      let m' : MusMatch :=
        { m with team1_games_won := team1_games,
                 team2_games_won := team2_games,
                 status := .completed,
                 winner_id := some (if team1_games = 3 then m.team1_id else m.team2_id),
                 completed_at := some now }
      (none, { s with «matches» := updateFirst s.«matches» mid m' })

/-- `create_team` (`src/main.py:146-161`): rejects a duplicate name,
otherwise appends a fresh team. -/
def create_team (s : Store) (name player1 player2 : String) : Option Err × Store :=
  if s.teams.any (fun t => t.name == name) then
    (some (.validation "Team name already exists"), s)
  else
    (none, { s with
      teams := s.teams ++ [{ id := s.nextTeamId, name := name,
                             player1 := player1, player2 := player2 }],
      nextTeamId := s.nextTeamId + 1 })

/-! ## Ranking engine (`ranking_page`, `src/main.py:407-468`) -/

/-- One row of `ranking_data`. -/
structure RankRow where
  teamId : Nat
  vacas_ganadas : Nat
  diferencia_partidas : Int
  enfrentamientos : String
deriving DecidableEq, Repr

/-- Per-team statistics row, mirroring the queries and loops of
`ranking_page`. -/
def teamRow («matches» : List MusMatch) (t : Team) : RankRow :=
  let vacas := («matches».filter (fun m =>
    decide (m.winner_id = some t.id ∧ m.status = .completed))).length
  let asT1 := «matches».filter (fun m =>
    decide (m.team1_id = t.id ∧ m.status = .completed))
  let asT2 := «matches».filter (fun m =>
    decide (m.team2_id = t.id ∧ m.status = .completed))
  let ganadas := (asT1.map MusMatch.team1_games_won).sum
               + (asT2.map MusMatch.team2_games_won).sum
  let perdidas := (asT1.map MusMatch.team2_games_won).sum
                + (asT2.map MusMatch.team1_games_won).sum
  let jugados := («matches».filter (fun m =>
    decide ((m.team1_id = t.id ∨ m.team2_id = t.id) ∧ m.status = .completed))).length
  let totales := («matches».filter (fun m =>
    decide (m.team1_id = t.id ∨ m.team2_id = t.id))).length
  { teamId := t.id,
    vacas_ganadas := vacas,
    diferencia_partidas := ganadas - perdidas,
    enfrentamientos := s!"{jugados}/{totales}" }

/-- The comparison realised by Python's stable
`sort(key=(vacas_ganadas, diferencia_partidas), reverse=True)`:
`a` may stay before `b` iff `a`'s key is lexicographically ≥ `b`'s. -/
def rankLE (a b : RankRow) : Bool :=
  decide (b.vacas_ganadas < a.vacas_ganadas ∨
    (b.vacas_ganadas = a.vacas_ganadas ∧
     b.diferencia_partidas ≤ a.diferencia_partidas))

/-- `compute_ranking`: one row per team in store order, then the stable
descending sort of `ranking_page`. -/
def compute_ranking (teams : List Team) («matches» : List MusMatch) : List RankRow :=
  (teams.map (teamRow «matches»)).mergeSort rankLE


/-! ## Claim-side predicates and demo data -/

/-- The spec's validity condition for a direct final score: exactly one
of the two counts equals 3 and the other lies in [0,2]. -/
def claimValid (a b : Int) : Prop :=
  (a = 3 ∧ b ≠ 3 ∧ 0 ≤ b ∧ b ≤ 2) ∨ (b = 3 ∧ a ≠ 3 ∧ 0 ≤ a ∧ a ≤ 2)

instance (a b : Int) : Decidable (claimValid a b) := by
  unfold claimValid; infer_instance

/-- A tiny concrete store used by the witness theorems: two teams and
the single match pairing them. -/
def demoStore : Store :=
  { teams := [{ id := 1, name := "A", player1 := "a1", player2 := "a2" },
              { id := 2, name := "B", player1 := "b1", player2 := "b2" }],
    «matches» := [mkMatch 1 1 2],
    nextTeamId := 3, nextMatchId := 2 }

/-! ## Helper lemmas -/

theorem findMatch_eq_none_iff (ms : List MusMatch) (mid : Nat) :
    findMatch ms mid = none ↔ ∀ m ∈ ms, m.id ≠ mid := by
  simp [findMatch, List.find?_eq_none]

theorem findMatch_id (ms : List MusMatch) (mid : Nat) (m : MusMatch)
    (h : findMatch ms mid = some m) : m.id = mid := by
  have := List.find?_some h
  simpa using this

theorem findMatch_updateFirst (ms : List MusMatch) (mid : Nat) (m' : MusMatch)
    (h : findMatch ms mid ≠ none) (hid : m'.id = mid) :
    findMatch (updateFirst ms mid m') mid = some m' := by
  induction ms with
  | nil => simp [findMatch] at h
  | cons x xs ih =>
    by_cases hx : x.id = mid
    · simp [updateFirst, hx, findMatch, List.find?, hid]
    · have hx' : (x.id == mid) = false := by simpa using hx
      have h' : findMatch xs mid ≠ none := by
        simpa [findMatch, List.find?, hx'] using h
      simpa [updateFirst, hx', findMatch, List.find?] using ih h'

theorem updateFirst_self (ms : List MusMatch) (mid : Nat) (m : MusMatch)
    (h : findMatch ms mid = some m) : updateFirst ms mid m = ms := by
  induction ms with
  | nil => simp [findMatch] at h
  | cons x xs ih =>
    by_cases hx : x.id = mid
    · have hx' : (x.id == mid) = true := by simpa using hx
      have hxm : x = m := by
        simpa [findMatch, List.find?, hx'] using h
      subst hxm
      simp [updateFirst, hx']
    · have hx' : (x.id == mid) = false := by simpa using hx
      have h' : findMatch xs mid = some m := by
        simpa [findMatch, List.find?, hx'] using h
      simp [updateFirst, hx', ih h']

/-! ## C1: error behaviour of set_result -/

/-- C1: for every call `set_result(match_id, team1_games, team2_games)`:
if `match_id` resolves to no existing match the call fails with
`NotFoundError`; otherwise it fails with a `ValidationError` if and only
if it is not the case that exactly one count equals 3 with the other in
[0,2]; and on every failure the store is left unchanged. -/
theorem set_result_error_spec (s : Store) (mid : Nat) (g1 g2 : Int) (now : Nat) :
    ((∀ m ∈ s.«matches», m.id ≠ mid) →
      set_match_result s mid g1 g2 now = (some (Err.notFound "Match not found"), s))
    ∧ ((∃ m ∈ s.«matches», m.id = mid) →
      ((∃ msg, (set_match_result s mid g1 g2 now).1 = some (Err.validation msg)) ↔
        ¬ claimValid g1 g2))
    ∧ (∀ e, (set_match_result s mid g1 g2 now).1 = some e →
      (set_match_result s mid g1 g2 now).2 = s) := by
  refine ⟨?_, ?_, ?_⟩
  · intro h
    have hnone : findMatch s.«matches» mid = none :=
      (findMatch_eq_none_iff s.«matches» mid).mpr h
    simp [set_match_result, hnone]
  · rintro ⟨m, hm, hid⟩
    cases hf : findMatch s.«matches» mid with
    | none =>
      exact absurd hid ((findMatch_eq_none_iff s.«matches» mid).mp hf m hm)
    | some m0 =>
      simp only [set_match_result, hf]
      by_cases h1 : g1 < 0 ∨ g2 < 0
      · rw [if_pos h1]
        constructor
        · intro _; unfold claimValid; omega
        · intro _; exact ⟨"Games won cannot be negative", rfl⟩
      · rw [if_neg h1]
        by_cases h2 : g1 = g2
        · rw [if_pos h2]
          constructor
          · intro _; unfold claimValid; omega
          · intro _; exact ⟨"Cannot have a tie", rfl⟩
        · rw [if_neg h2]
          by_cases h3 : (g1 = 3 ∧ 0 ≤ g2 ∧ g2 ≤ 2) ∨ (g2 = 3 ∧ 0 ≤ g1 ∧ g1 ≤ 2)
          · rw [if_neg (not_not_intro h3)]
            constructor
            · rintro ⟨msg, hmsg⟩
              simp at hmsg
            · intro hv
              exact absurd (by unfold claimValid; omega) hv
          · rw [if_pos h3]
            constructor
            · intro _; unfold claimValid; omega
            · intro _; exact ⟨"One team must win 3 games, the other 0-2", rfl⟩
  · intro e
    cases hf : findMatch s.«matches» mid with
    | none => intro _; simp [set_match_result, hf]
    | some m0 =>
      simp only [set_match_result, hf]
      split_ifs <;> simp

/-- C1 witness: in the demo store, match 1 exists, and `set_result(3,3)`
fails with a `ValidationError` since the counts are not exactly-one-3. -/
theorem set_result_error_spec_witness :
    (∃ m ∈ demoStore.«matches», m.id = 1) ∧
    ((∃ msg, (set_match_result demoStore 1 3 3 0).1 = some (Err.validation msg)) ↔
      ¬ claimValid 3 3) :=
  ⟨by decide, (set_result_error_spec demoStore 1 3 3 0).2.1 (by decide)⟩

/-! ## C2: success behaviour of set_result -/

/-- C2: whenever the match exists and exactly one count equals 3 with the
other in [0,2], `set_result` succeeds and stores the two counters, status
COMPLETED, the winner being the side whose count is 3, and the completion
timestamp `now`; the identity of the match and its two teams are kept. -/
theorem set_result_success_spec (s : Store) (mid : Nat) (g1 g2 : Int) (now : Nat)
    (m : MusMatch) (hm : findMatch s.«matches» mid = some m) (hv : claimValid g1 g2) :
    (set_match_result s mid g1 g2 now).1 = none ∧
    ∃ m', findMatch (set_match_result s mid g1 g2 now).2.«matches» mid = some m' ∧
      m'.team1_games_won = g1 ∧ m'.team2_games_won = g2 ∧
      m'.status = .completed ∧
      (g1 = 3 → m'.winner_id = some m.team1_id) ∧
      (g2 = 3 → m'.winner_id = some m.team2_id) ∧
      m'.completed_at = some now ∧
      m'.id = m.id ∧ m'.team1_id = m.team1_id ∧ m'.team2_id = m.team2_id := by
  have h1 : ¬ (g1 < 0 ∨ g2 < 0) := by unfold claimValid at hv; omega
  have h2 : g1 ≠ g2 := by unfold claimValid at hv; omega
  have h3 : (g1 = 3 ∧ 0 ≤ g2 ∧ g2 ≤ 2) ∨ (g2 = 3 ∧ 0 ≤ g1 ∧ g1 ≤ 2) := by
    unfold claimValid at hv; omega
  simp only [set_match_result, hm, if_neg h1, if_neg h2, if_neg (not_not_intro h3)]
  refine ⟨by trivial, ?_⟩
  have hid : m.id = mid := findMatch_id _ _ _ hm
  have hfind :
      findMatch (updateFirst s.«matches» mid
        { m with team1_games_won := g1, team2_games_won := g2,
                 status := .completed,
                 winner_id := some (if g1 = 3 then m.team1_id else m.team2_id),
                 completed_at := some now }) mid =
      some { m with team1_games_won := g1, team2_games_won := g2,
                    status := .completed,
                    winner_id := some (if g1 = 3 then m.team1_id else m.team2_id),
                    completed_at := some now } := by
    apply findMatch_updateFirst
    · simp [hm]
    · simpa using hid
  refine ⟨_, hfind, rfl, rfl, rfl, ?_, ?_, rfl, rfl, rfl, rfl⟩
  · intro hg1; simp [hg1]
  · intro hg2
    have hg1 : g1 ≠ 3 := by unfold claimValid at hv; omega
    simp [if_neg hg1]

/-- C2 witness: `set_result(3,1)` on the demo match succeeds with status
COMPLETED and winner team 1. -/
theorem set_result_success_spec_witness :
    findMatch demoStore.«matches» 1 = some (mkMatch 1 1 2) ∧ claimValid 3 1 ∧
    ((set_match_result demoStore 1 3 1 7).1 = none ∧
    ∃ m', findMatch (set_match_result demoStore 1 3 1 7).2.«matches» 1 = some m' ∧
      m'.team1_games_won = 3 ∧ m'.team2_games_won = 1 ∧
      m'.status = .completed ∧
      ((3 : Int) = 3 → m'.winner_id = some (mkMatch 1 1 2).team1_id) ∧
      ((1 : Int) = 3 → m'.winner_id = some (mkMatch 1 1 2).team2_id) ∧
      m'.completed_at = some 7 ∧
      m'.id = (mkMatch 1 1 2).id ∧ m'.team1_id = (mkMatch 1 1 2).team1_id ∧
      m'.team2_id = (mkMatch 1 1 2).team2_id) :=
  ⟨by decide, by decide,
    set_result_success_spec demoStore 1 3 1 7 (mkMatch 1 1 2) (by decide) (by decide)⟩

/-! ## C8: generate_schedule with fewer than 2 teams -/

/-- C8: with fewer than 2 teams, `generate_matches` fails with the
`ValidationError` "Need at least 2 teams", commits nothing, and the final
store is the unchanged input. -/
theorem generate_too_few_teams (s : Store) (h : s.teams.length < 2) :
    (generate_matches s).1 = some (Err.validation "Need at least 2 teams") ∧
    (generate_matches s).2 = [] ∧
    genFinal s = s := by
  refine ⟨?_, ?_, ?_⟩ <;> simp [generate_matches, genFinal, h]

/-- A one-team store used by the generate witnesses. -/
def soloStore : Store :=
  { teams := [{ id := 1, name := "A", player1 := "a1", player2 := "a2" }],
    «matches» := [mkMatch 1 1 2],
    nextTeamId := 2, nextMatchId := 2 }

/-- C8 witness: the one-team store is rejected and left unchanged. -/
theorem generate_too_few_teams_witness :
    soloStore.teams.length < 2 ∧
    ((generate_matches soloStore).1 = some (Err.validation "Need at least 2 teams") ∧
     (generate_matches soloStore).2 = [] ∧
     genFinal soloStore = soloStore) :=
  ⟨by decide, generate_too_few_teams soloStore (by decide)⟩

/-! ## C3: commit behaviour of generate_matches -/

/-- C3 counterexample: on the demo store (two teams, one existing match)
`generate_matches` does NOT commit only once after all pairs are
inserted: its commit trace contains a committed state different from the
final one, namely an intermediate state in which the old matches are
already deleted while the new matches do not exist yet. -/
theorem generate_not_atomic_counterexample :
    ¬ (∀ c ∈ (generate_matches demoStore).2, c = genFinal demoStore) ∧
    (∃ c ∈ (generate_matches demoStore).2,
      c.«matches» = [] ∧ (genFinal demoStore).«matches» ≠ []) := by
  constructor
  · intro h
    have hmem : ({ demoStore with «matches» := [] } : Store) ∈ (generate_matches demoStore).2 := by
      decide
    have heq := h _ hmem
    revert heq
    decide
  · decide

/-- C3 amended: `generate_matches` commits exactly twice: a first commit
immediately after deleting all existing matches — making the intermediate
state with no matches at all a committed state — and a second commit
after all pairs have been inserted. -/
theorem generate_commits_twice (s : Store) (h : 2 ≤ s.teams.length) :
    (generate_matches s).1 = none ∧
    (generate_matches s).2 = [{ s with «matches» := [] }, genFinal s] ∧
    genFinal s =
      { s with «matches» := mkMatches (combinations2 s.teams) s.nextMatchId,
               nextMatchId :=
                 s.nextMatchId + (mkMatches (combinations2 s.teams) s.nextMatchId).length } := by
  have h' : ¬ s.teams.length < 2 := by omega
  refine ⟨?_, ?_, ?_⟩ <;> simp [generate_matches, genFinal, h']

/-- C3 amended-claim witness: on the demo store the two committed states
are the matchless intermediate state and the final state. -/
theorem generate_commits_twice_witness :
    2 ≤ demoStore.teams.length ∧
    ((generate_matches demoStore).1 = none ∧
     (generate_matches demoStore).2 = [{ demoStore with «matches» := [] }, genFinal demoStore] ∧
     genFinal demoStore =
       { demoStore with
           «matches» := mkMatches (combinations2 demoStore.teams) demoStore.nextMatchId,
           nextMatchId :=
             demoStore.nextMatchId +
               (mkMatches (combinations2 demoStore.teams) demoStore.nextMatchId).length }) :=
  ⟨by decide, generate_commits_twice demoStore (by decide)⟩

/-! ## C4: shape of the generated schedule -/

theorem mkMatches_length (ps : List (Team × Team)) (n : Nat) :
    (mkMatches ps n).length = ps.length := by
  induction ps generalizing n with
  | nil => rfl
  | cons p ps ih => simp [mkMatches, ih]

theorem two_mul_combinations2_length (l : List Team) :
    2 * (combinations2 l).length = l.length * (l.length - 1) := by
  induction l with
  | nil => rfl
  | cons t ts ih =>
    simp only [combinations2, List.length_append, List.length_map, List.length_cons]
    cases hk : ts.length with
    | zero =>
      have : combinations2 ts = [] := by
        cases ts with
        | nil => rfl
        | cons a as => simp at hk
      simp [this, hk]
    | succ j =>
      have ih' : 2 * (combinations2 ts).length = (j + 1) * j := by
        simpa [hk] using ih
      rw [Nat.mul_add, ih']
      simp only [Nat.add_sub_cancel]
      ring

theorem combinations2_length (l : List Team) :
    (combinations2 l).length = l.length * (l.length - 1) / 2 := by
  have h := two_mul_combinations2_length l
  omega

theorem mem_mkMatches (ps : List (Team × Team)) (n : Nat) (m : MusMatch)
    (h : m ∈ mkMatches ps n) :
    m.status = .pending ∧ m.winner_id = none ∧ m.team1_games_won = 0 ∧
    m.team2_games_won = 0 ∧ m.completed_at = none ∧
    ∃ p ∈ ps, m.team1_id = p.1.id ∧ m.team2_id = p.2.id := by
  induction ps generalizing n with
  | nil => simp [mkMatches] at h
  | cons p ps ih =>
    simp only [mkMatches, List.mem_cons] at h
    rcases h with rfl | h
    · exact ⟨rfl, rfl, rfl, rfl, rfl, p, List.mem_cons_self p ps, rfl, rfl⟩
    · obtain ⟨h1, h2, h3, h4, h5, q, hq, hq1, hq2⟩ := ih (n + 1) h
      exact ⟨h1, h2, h3, h4, h5, q, List.mem_cons_of_mem p hq, hq1, hq2⟩

theorem mem_combinations2 (l : List Team) (p : Team × Team)
    (h : p ∈ combinations2 l) : p.1 ∈ l ∧ p.2 ∈ l := by
  induction l with
  | nil => simp [combinations2] at h
  | cons t ts ih =>
    simp only [combinations2, List.mem_append, List.mem_map] at h
    rcases h with ⟨u, hu, rfl⟩ | h
    · exact ⟨List.mem_cons_self t ts, List.mem_cons_of_mem t hu⟩
    · obtain ⟨h1, h2⟩ := ih h
      exact ⟨List.mem_cons_of_mem t h1, List.mem_cons_of_mem t h2⟩

theorem combinations2_distinct (l : List Team) (hids : (l.map Team.id).Nodup)
    (p : Team × Team) (h : p ∈ combinations2 l) : p.1.id ≠ p.2.id := by
  induction l with
  | nil => simp [combinations2] at h
  | cons t ts ih =>
    simp only [List.map_cons, List.nodup_cons] at hids
    obtain ⟨hnotin, hnd⟩ := hids
    simp only [combinations2, List.mem_append, List.mem_map] at h
    rcases h with ⟨u, hu, rfl⟩ | h
    · intro he
      exact hnotin (by rw [he]; exact List.mem_map_of_mem Team.id hu)
    · exact ih hnd h

theorem countP_mkMatches (ps : List (Team × Team)) (n : Nat) (q : Nat → Nat → Bool) :
    (mkMatches ps n).countP (fun m => q m.team1_id m.team2_id) =
    ps.countP (fun p => q p.1.id p.2.id) := by
  induction ps generalizing n with
  | nil => rfl
  | cons p ps ih =>
    simp only [mkMatches, List.countP_cons, ih, mkMatch]

theorem countP_team_id (l : List Team) (hids : (l.map Team.id).Nodup)
    (b : Team) (hb : b ∈ l) :
    l.countP (fun u => u.id == b.id) = 1 := by
  induction l with
  | nil => simp at hb
  | cons t ts ih =>
    simp only [List.map_cons, List.nodup_cons] at hids
    obtain ⟨hnotin, hnd⟩ := hids
    rw [List.countP_cons]
    by_cases ht : t.id = b.id
    · have hz : ts.countP (fun u => u.id == b.id) = 0 := by
        rw [List.countP_eq_zero]
        intro u hu
        simp only [beq_iff_eq]
        intro he
        exact hnotin (by rw [ht, ← he]; exact List.mem_map_of_mem Team.id hu)
      simp [hz, ht]
    · have hb' : b ∈ ts := by
        rcases List.mem_cons.mp hb with rfl | hb'
        · exact absurd rfl ht
        · exact hb'
      have ht' : (t.id == b.id) = false := by simpa using ht
      simp [ih hnd hb', ht']

theorem countP_combinations2_pair (l : List Team) (hids : (l.map Team.id).Nodup)
    (a b : Team) (ha : a ∈ l) (hb : b ∈ l) (hab : a.id ≠ b.id) :
    (combinations2 l).countP (fun p =>
      decide ((p.1.id = a.id ∧ p.2.id = b.id) ∨ (p.1.id = b.id ∧ p.2.id = a.id))) = 1 := by
  induction l with
  | nil => simp at ha
  | cons t ts ih =>
    simp only [List.map_cons, List.nodup_cons] at hids
    obtain ⟨hnotin, hnd⟩ := hids
    simp only [combinations2, List.countP_append, List.countP_map]
    by_cases hta : t.id = a.id
    · have htb : t.id ≠ b.id := by omega
      have hbts : b ∈ ts := by
        rcases List.mem_cons.mp hb with rfl | h
        · exact absurd rfl htb
        · exact h
      have hmap : ts.countP ((fun p : Team × Team =>
          decide ((p.1.id = a.id ∧ p.2.id = b.id) ∨ (p.1.id = b.id ∧ p.2.id = a.id))) ∘
            (fun u => (t, u))) = 1 := by
        rw [List.countP_congr (q := fun u => u.id == b.id) ?_]
        · exact countP_team_id ts hnd b hbts
        · intro u _
          simp only [Function.comp_apply, decide_eq_true_eq, beq_iff_eq]
          constructor
          · rintro (⟨_, h2⟩ | ⟨h1, _⟩)
            · exact h2
            · exact absurd h1 htb
          · intro h
            exact Or.inl ⟨hta, h⟩
      have hrec : (combinations2 ts).countP (fun p =>
          decide ((p.1.id = a.id ∧ p.2.id = b.id) ∨ (p.1.id = b.id ∧ p.2.id = a.id))) = 0 := by
        rw [List.countP_eq_zero]
        intro p hp
        obtain ⟨h1, h2⟩ := mem_combinations2 ts p hp
        simp only [decide_eq_true_eq]
        rintro (⟨hp1, _⟩ | ⟨_, hp2⟩)
        · exact hnotin (by rw [hta, ← hp1]; exact List.mem_map_of_mem Team.id h1)
        · exact hnotin (by rw [hta, ← hp2]; exact List.mem_map_of_mem Team.id h2)
      rw [hmap, hrec]
    · by_cases htb : t.id = b.id
      · have hats : a ∈ ts := by
          rcases List.mem_cons.mp ha with rfl | h
          · exact absurd rfl hta
          · exact h
        have hmap : ts.countP ((fun p : Team × Team =>
            decide ((p.1.id = a.id ∧ p.2.id = b.id) ∨ (p.1.id = b.id ∧ p.2.id = a.id))) ∘
              (fun u => (t, u))) = 1 := by
          rw [List.countP_congr (q := fun u => u.id == a.id) ?_]
          · exact countP_team_id ts hnd a hats
          · intro u _
            simp only [Function.comp_apply, decide_eq_true_eq, beq_iff_eq]
            constructor
            · rintro (⟨h1, _⟩ | ⟨_, h2⟩)
              · exact absurd h1 hta
              · exact h2
            · intro h
              exact Or.inr ⟨htb, h⟩
        have hrec : (combinations2 ts).countP (fun p =>
            decide ((p.1.id = a.id ∧ p.2.id = b.id) ∨ (p.1.id = b.id ∧ p.2.id = a.id))) = 0 := by
          rw [List.countP_eq_zero]
          intro p hp
          obtain ⟨h1, h2⟩ := mem_combinations2 ts p hp
          simp only [decide_eq_true_eq]
          rintro (⟨_, hp2⟩ | ⟨hp1, _⟩)
          · exact hnotin (by rw [htb, ← hp2]; exact List.mem_map_of_mem Team.id h2)
          · exact hnotin (by rw [htb, ← hp1]; exact List.mem_map_of_mem Team.id h1)
        rw [hmap, hrec]
      · have hats : a ∈ ts := by
          rcases List.mem_cons.mp ha with rfl | h
          · exact absurd rfl hta
          · exact h
        have hbts : b ∈ ts := by
          rcases List.mem_cons.mp hb with rfl | h
          · exact absurd rfl htb
          · exact h
        have hmap : ts.countP ((fun p : Team × Team =>
            decide ((p.1.id = a.id ∧ p.2.id = b.id) ∨ (p.1.id = b.id ∧ p.2.id = a.id))) ∘
              (fun u => (t, u))) = 0 := by
          rw [List.countP_eq_zero]
          intro u _
          simp only [Function.comp_apply, decide_eq_true_eq]
          rintro (⟨h1, _⟩ | ⟨h1, _⟩)
          · exact hta h1
          · exact htb h1
        rw [hmap, ih hnd hats hbts]

/-- `genFinal` in the ≥ 2 teams case, unfolded. -/
theorem genFinal_eq (s : Store) (h : ¬ s.teams.length < 2) :
    genFinal s =
      { s with «matches» := mkMatches (combinations2 s.teams) s.nextMatchId,
               nextMatchId :=
                 s.nextMatchId + (mkMatches (combinations2 s.teams) s.nextMatchId).length } := by
  simp [genFinal, generate_matches, h]

theorem genFinal_matches_length (s : Store) (h : 2 ≤ s.teams.length) :
    (genFinal s).«matches».length = s.teams.length * (s.teams.length - 1) / 2 := by
  rw [genFinal_eq s (by omega)]
  simp [mkMatches_length, combinations2_length]

/-- C4: with N ≥ 2 (id-distinct) teams, the schedule generator replaces
the matches by exactly N·(N−1)/2 new ones — each PENDING, winnerless,
zero-countered, pairing two distinct existing teams — with exactly one
match per unordered pair of distinct teams; running it again over the
same teams regenerates an equal-size set. -/
theorem generate_schedule_spec (s : Store) (h2 : 2 ≤ s.teams.length)
    (hids : (s.teams.map Team.id).Nodup) :
    (genFinal s).«matches».length = s.teams.length * (s.teams.length - 1) / 2 ∧
    (∀ m ∈ (genFinal s).«matches»,
      m.status = .pending ∧ m.winner_id = none ∧ m.team1_games_won = 0 ∧
      m.team2_games_won = 0 ∧ m.completed_at = none ∧
      ∃ t1 ∈ s.teams, ∃ t2 ∈ s.teams, t1.id ≠ t2.id ∧
        m.team1_id = t1.id ∧ m.team2_id = t2.id) ∧
    (∀ t1 ∈ s.teams, ∀ t2 ∈ s.teams, t1.id ≠ t2.id →
      (genFinal s).«matches».countP (fun m =>
        decide ((m.team1_id = t1.id ∧ m.team2_id = t2.id) ∨
                (m.team1_id = t2.id ∧ m.team2_id = t1.id))) = 1) ∧
    (genFinal (genFinal s)).«matches».length = (genFinal s).«matches».length := by
  have h' : ¬ s.teams.length < 2 := by omega
  have hteams : (genFinal s).teams = s.teams := by rw [genFinal_eq s h']
  refine ⟨genFinal_matches_length s h2, ?_, ?_, ?_⟩
  · intro m hm
    rw [genFinal_eq s h'] at hm
    obtain ⟨h1, hw, hg1, hg2, hc, p, hp, he1, he2⟩ :=
      mem_mkMatches (combinations2 s.teams) s.nextMatchId m hm
    obtain ⟨hm1, hm2⟩ := mem_combinations2 s.teams p hp
    exact ⟨h1, hw, hg1, hg2, hc,
      p.1, hm1, p.2, hm2, combinations2_distinct s.teams hids p hp, he1, he2⟩
  · intro t1 ht1 t2 ht2 hne
    rw [genFinal_eq s h']
    show (mkMatches (combinations2 s.teams) s.nextMatchId).countP
      (fun m => decide ((m.team1_id = t1.id ∧ m.team2_id = t2.id) ∨
                        (m.team1_id = t2.id ∧ m.team2_id = t1.id))) = 1
    rw [countP_mkMatches (combinations2 s.teams) s.nextMatchId
      (fun x y => decide ((x = t1.id ∧ y = t2.id) ∨ (x = t2.id ∧ y = t1.id)))]
    exact countP_combinations2_pair s.teams hids t1 t2 ht1 ht2 hne
  · rw [genFinal_matches_length s h2,
        genFinal_matches_length (genFinal s) (by rw [hteams]; exact h2), hteams]

/-- C4 witness: the demo store (its single old match included) is
replaced by exactly one new PENDING match pairing the two teams. -/
theorem generate_schedule_spec_witness :
    (2 ≤ demoStore.teams.length ∧ (demoStore.teams.map Team.id).Nodup) ∧
    ((genFinal demoStore).«matches».length =
        demoStore.teams.length * (demoStore.teams.length - 1) / 2 ∧
     (∀ m ∈ (genFinal demoStore).«matches»,
       m.status = .pending ∧ m.winner_id = none ∧ m.team1_games_won = 0 ∧
       m.team2_games_won = 0 ∧ m.completed_at = none ∧
       ∃ t1 ∈ demoStore.teams, ∃ t2 ∈ demoStore.teams, t1.id ≠ t2.id ∧
         m.team1_id = t1.id ∧ m.team2_id = t2.id) ∧
     (∀ t1 ∈ demoStore.teams, ∀ t2 ∈ demoStore.teams, t1.id ≠ t2.id →
       (genFinal demoStore).«matches».countP (fun m =>
         decide ((m.team1_id = t1.id ∧ m.team2_id = t2.id) ∨
                 (m.team1_id = t2.id ∧ m.team2_id = t1.id))) = 1) ∧
     (genFinal (genFinal demoStore)).«matches».length =
        (genFinal demoStore).«matches».length) :=
  ⟨⟨by decide, by decide⟩,
    generate_schedule_spec demoStore (by decide) (by decide)⟩

/-! ## C9: edit_result coincides with set_result and is idempotent -/

/-- C9: for every store, match id, pair of counts and timestamp, the edit
operation returns exactly the same error (kind and message) and the same
resulting store as the set operation; and a successful call is idempotent:
repeating the identical call leaves the store fixed. -/
theorem edit_result_equals_set_result (s : Store) (mid : Nat) (g1 g2 : Int) (now : Nat) :
    edit_match_result s mid g1 g2 now = set_match_result s mid g1 g2 now ∧
    ((set_match_result s mid g1 g2 now).1 = none →
      set_match_result (set_match_result s mid g1 g2 now).2 mid g1 g2 now =
        (none, (set_match_result s mid g1 g2 now).2)) := by
  refine ⟨rfl, ?_⟩
  intro hsucc
  cases hf : findMatch s.«matches» mid with
  | none => simp [set_match_result, hf] at hsucc
  | some m =>
    by_cases h1 : g1 < 0 ∨ g2 < 0
    · have hbad : (set_match_result s mid g1 g2 now).1 =
          some (Err.validation "Games won cannot be negative") := by
        simp only [set_match_result, hf, if_pos h1]
      rw [hbad] at hsucc
      exact Option.noConfusion hsucc
    · by_cases h2 : g1 = g2
      · have hbad : (set_match_result s mid g1 g2 now).1 =
            some (Err.validation "Cannot have a tie") := by
          simp only [set_match_result, hf, if_neg h1, if_pos h2]
        rw [hbad] at hsucc
        exact Option.noConfusion hsucc
      · by_cases h3 : (g1 = 3 ∧ 0 ≤ g2 ∧ g2 ≤ 2) ∨ (g2 = 3 ∧ 0 ≤ g1 ∧ g1 ≤ 2)
        · have hid : m.id = mid := findMatch_id _ _ _ hf
          have hfst : set_match_result s mid g1 g2 now = (none, { s with «matches» := updateFirst s.«matches» mid { m with team1_games_won := g1, team2_games_won := g2, status := .completed, winner_id := some (if g1 = 3 then m.team1_id else m.team2_id), completed_at := some now } }) := by
            simp only [set_match_result, hf, if_neg h1, if_neg h2, if_neg (not_not_intro h3)]
          rw [hfst]
          have hfind2 : findMatch (updateFirst s.«matches» mid { m with team1_games_won := g1, team2_games_won := g2, status := .completed, winner_id := some (if g1 = 3 then m.team1_id else m.team2_id), completed_at := some now }) mid = some { m with team1_games_won := g1, team2_games_won := g2, status := .completed, winner_id := some (if g1 = 3 then m.team1_id else m.team2_id), completed_at := some now } :=
            findMatch_updateFirst _ _ _ (by simp [hf]) (by simpa using hid)
          simp only [set_match_result, hfind2, if_neg h1, if_neg h2,
            if_neg (not_not_intro h3)]
          rw [updateFirst_self _ _ _ hfind2]
        · have hbad : (set_match_result s mid g1 g2 now).1 =
              some (Err.validation "One team must win 3 games, the other 0-2") := by
            simp only [set_match_result, hf, if_neg h1, if_neg h2, if_pos h3]
          rw [hbad] at hsucc
          exact Option.noConfusion hsucc

/-- C9 witness: on the demo store, `edit_result(3,1)` equals
`set_result(3,1)`, and repeating the successful call is a no-op. -/
theorem edit_result_equals_set_result_witness :
    (edit_match_result demoStore 1 3 1 7 = set_match_result demoStore 1 3 1 7) ∧
    ((set_match_result demoStore 1 3 1 7).1 = none ∧
      set_match_result (set_match_result demoStore 1 3 1 7).2 1 3 1 7 =
        (none, (set_match_result demoStore 1 3 1 7).2)) :=
  ⟨(edit_result_equals_set_result demoStore 1 3 1 7).1,
   by decide,
   (edit_result_equals_set_result demoStore 1 3 1 7).2 (by decide)⟩

/-! ## Reachable states (C7, C10) -/

/-- The empty initial store. -/
def initStore : Store :=
  { teams := [], «matches» := [], nextTeamId := 1, nextMatchId := 1 }

/-- Store states reachable from the empty store by team creation,
schedule generation (every committed state included) and set/edit result
calls (whose result state equals the input on failure). -/
inductive Reachable : Store → Prop where
  | init : Reachable initStore
  | createTeam (s : Store) (name p1 p2 : String) :
      Reachable s → Reachable (create_team s name p1 p2).2
  | generate (s c : Store) :
      Reachable s → c ∈ (generate_matches s).2 → Reachable c
  | setResult (s : Store) (mid : Nat) (g1 g2 : Int) (now : Nat) :
      Reachable s → Reachable (set_match_result s mid g1 g2 now).2
  | editResult (s : Store) (mid : Nat) (g1 g2 : Int) (now : Nat) :
      Reachable s → Reachable (edit_match_result s mid g1 g2 now).2

theorem create_team_matches (s : Store) (n p1 p2 : String) :
    (create_team s n p1 p2).2.«matches» = s.«matches» := by
  unfold create_team
  split <;> rfl

theorem edit_defeq : edit_match_result = set_match_result := rfl

theorem mem_updateFirst (ms : List MusMatch) (mid : Nat) (m' x : MusMatch)
    (h : x ∈ updateFirst ms mid m') : x = m' ∨ x ∈ ms := by
  induction ms with
  | nil => simp [updateFirst] at h
  | cons y ys ih =>
    by_cases hy : y.id = mid
    · have hb : (y.id == mid) = true := beq_iff_eq.mpr hy
      simp only [updateFirst, hb, if_true, List.mem_cons] at h
      rcases h with rfl | h
      · exact Or.inl rfl
      · exact Or.inr (List.mem_cons_of_mem y h)
    · have hb : (y.id == mid) = false := by simpa using hy
      simp only [updateFirst, hb, Bool.false_eq_true, if_false, List.mem_cons] at h
      rcases h with heq | htail
      · exact Or.inr (List.mem_cons.mpr (Or.inl heq))
      · rcases ih htail with h' | h'
        · exact Or.inl h'
        · exact Or.inr (List.mem_cons_of_mem y h')

/-- Case analysis of `set_match_result`: either the store comes back
unchanged, or the call went through the validated update. -/
theorem set_result_state (s : Store) (mid : Nat) (g1 g2 : Int) (now : Nat) :
    (set_match_result s mid g1 g2 now).2 = s ∨
    ∃ m, findMatch s.«matches» mid = some m ∧
      ¬ (g1 < 0 ∨ g2 < 0) ∧ g1 ≠ g2 ∧
      ((g1 = 3 ∧ 0 ≤ g2 ∧ g2 ≤ 2) ∨ (g2 = 3 ∧ 0 ≤ g1 ∧ g1 ≤ 2)) ∧
      (set_match_result s mid g1 g2 now).2 = { s with «matches» := updateFirst s.«matches» mid { m with team1_games_won := g1, team2_games_won := g2, status := .completed, winner_id := some (if g1 = 3 then m.team1_id else m.team2_id), completed_at := some now } } := by
  cases hf : findMatch s.«matches» mid with
  | none => left; simp [set_match_result, hf]
  | some m =>
    by_cases h1 : g1 < 0 ∨ g2 < 0
    · left; simp [set_match_result, hf, h1]
    · by_cases h2 : g1 = g2
      · left; simp only [set_match_result, hf, if_neg h1, if_pos h2]
      · by_cases h3 : (g1 = 3 ∧ 0 ≤ g2 ∧ g2 ≤ 2) ∨ (g2 = 3 ∧ 0 ≤ g1 ∧ g1 ≤ 2)
        · right
          refine ⟨m, rfl, h1, h2, h3, ?_⟩
          simp only [set_match_result, hf, if_neg h1, if_neg h2,
            if_neg (not_not_intro h3)]
        · left
          simp only [set_match_result, hf, if_neg h1, if_neg h2, if_pos h3]

/-! ## C7: completed-match invariant over all reachable states -/

/-- The spec's match invariant: a COMPLETED match has a winner equal to
team1 or team2 whose count is ≥ 3 and strictly above the loser's count,
the loser's count lying in [0,2]; any other match has no winner. -/
def matchInv (m : MusMatch) : Prop :=
  (m.status = .completed →
    ((m.winner_id = some m.team1_id ∧ 3 ≤ m.team1_games_won ∧
      m.team2_games_won < m.team1_games_won ∧
      0 ≤ m.team2_games_won ∧ m.team2_games_won ≤ 2) ∨
     (m.winner_id = some m.team2_id ∧ 3 ≤ m.team2_games_won ∧
      m.team1_games_won < m.team2_games_won ∧
      0 ≤ m.team1_games_won ∧ m.team1_games_won ≤ 2)))
  ∧ (m.status ≠ .completed → m.winner_id = none)

/-- C7: in every reachable store state, every match satisfies the
completed-match/winner invariant. -/
theorem reachable_match_invariant (s : Store) (hr : Reachable s) :
    ∀ m ∈ s.«matches», matchInv m := by
  induction hr with
  | init => intro m hm; simp [initStore] at hm
  | createTeam s name p1 p2 hr ih =>
    intro m hm
    rw [create_team_matches] at hm
    exact ih m hm
  | generate s c hr hc ih =>
    intro m hm
    by_cases hlen : s.teams.length < 2
    · simp [generate_matches, hlen] at hc
    · simp only [generate_matches, if_neg hlen, List.mem_cons,
        List.not_mem_nil, or_false, List.mem_singleton] at hc
      rcases hc with rfl | rfl
      · simp at hm
      · simp only at hm
        obtain ⟨hp, hw, _, _, _, _⟩ := mem_mkMatches _ _ m hm
        constructor
        · intro hcomp
          rw [hp] at hcomp
          cases hcomp
        · intro _
          exact hw
  | setResult s mid g1 g2 now hr ih =>
    intro m hm
    rcases set_result_state s mid g1 g2 now with heq | ⟨m0, hf, h1, h2, h3, heq⟩
    · rw [heq] at hm
      exact ih m hm
    · rw [heq] at hm
      simp only at hm
      rcases mem_updateFirst _ _ _ _ hm with rfl | hmem
      · constructor
        · intro _
          by_cases hg : g1 = 3
          · left
            refine ⟨by simp [hg], by simp only; omega, by simp only; omega,
              by simp only; omega, by simp only; omega⟩
          · right
            refine ⟨by simp [if_neg hg], by simp only; omega, by simp only; omega,
              by simp only; omega, by simp only; omega⟩
        · intro hne
          exact absurd rfl hne
      · exact ih m hmem
  | editResult s mid g1 g2 now hr ih =>
    intro m hm
    rw [edit_defeq] at hm
    rcases set_result_state s mid g1 g2 now with heq | ⟨m0, hf, h1, h2, h3, heq⟩
    · rw [heq] at hm
      exact ih m hm
    · rw [heq] at hm
      simp only at hm
      rcases mem_updateFirst _ _ _ _ hm with rfl | hmem
      · constructor
        · intro _
          by_cases hg : g1 = 3
          · left
            refine ⟨by simp [hg], by simp only; omega, by simp only; omega,
              by simp only; omega, by simp only; omega⟩
          · right
            refine ⟨by simp [if_neg hg], by simp only; omega, by simp only; omega,
              by simp only; omega, by simp only; omega⟩
        · intro hne
          exact absurd rfl hne
      · exact ih m hmem

/-- The demo store is reachable: create the two teams, then generate the
schedule. -/
theorem reachable_demo : Reachable demoStore := by
  have r0 : Reachable initStore := Reachable.init
  have r1 := Reachable.createTeam initStore "A" "a1" "a2" r0
  have r2 := Reachable.createTeam _ "B" "b1" "b2" r1
  exact Reachable.generate _ demoStore r2 (by decide)

/-- C7 witness: the demo store is reachable and all its matches satisfy
the invariant. -/
theorem reachable_match_invariant_witness :
    Reachable demoStore ∧ ∀ m ∈ demoStore.«matches», matchInv m :=
  ⟨reachable_demo, reachable_match_invariant demoStore reachable_demo⟩

/-! ## C10: no operation produces IN_PROGRESS -/

/-- The status invariant of the direct-score implementation: a match is
PENDING or COMPLETED (never IN_PROGRESS), and carries a completion
timestamp only when COMPLETED. -/
def statusInv (m : MusMatch) : Prop :=
  (m.status = .pending ∨ m.status = .completed) ∧
  (m.completed_at ≠ none → m.status = .completed)

/-- C10: in every reachable store state every match is PENDING or
COMPLETED — no operation of the direct-score implementation ever sets
IN_PROGRESS — and `completed_at` is non-null only for COMPLETED matches. -/
theorem reachable_status_invariant (s : Store) (hr : Reachable s) :
    ∀ m ∈ s.«matches», statusInv m := by
  induction hr with
  | init => intro m hm; simp [initStore] at hm
  | createTeam s name p1 p2 hr ih =>
    intro m hm
    rw [create_team_matches] at hm
    exact ih m hm
  | generate s c hr hc ih =>
    intro m hm
    by_cases hlen : s.teams.length < 2
    · simp [generate_matches, hlen] at hc
    · simp only [generate_matches, if_neg hlen, List.mem_cons,
        List.not_mem_nil, or_false, List.mem_singleton] at hc
      rcases hc with rfl | rfl
      · simp at hm
      · simp only at hm
        obtain ⟨hp, _, _, _, hc0, _⟩ := mem_mkMatches _ _ m hm
        exact ⟨Or.inl hp, fun hne => absurd hc0 hne⟩
  | setResult s mid g1 g2 now hr ih =>
    intro m hm
    rcases set_result_state s mid g1 g2 now with heq | ⟨m0, hf, h1, h2, h3, heq⟩
    · rw [heq] at hm
      exact ih m hm
    · rw [heq] at hm
      simp only at hm
      rcases mem_updateFirst _ _ _ _ hm with rfl | hmem
      · exact ⟨Or.inr rfl, fun _ => rfl⟩
      · exact ih m hmem
  | editResult s mid g1 g2 now hr ih =>
    intro m hm
    rw [edit_defeq] at hm
    rcases set_result_state s mid g1 g2 now with heq | ⟨m0, hf, h1, h2, h3, heq⟩
    · rw [heq] at hm
      exact ih m hm
    · rw [heq] at hm
      simp only at hm
      rcases mem_updateFirst _ _ _ _ hm with rfl | hmem
      · exact ⟨Or.inr rfl, fun _ => rfl⟩
      · exact ih m hmem

/-- C10 witness: the reachable demo store satisfies the status invariant
on all its matches. -/
theorem reachable_status_invariant_witness :
    Reachable demoStore ∧ ∀ m ∈ demoStore.«matches», statusInv m :=
  ⟨reachable_demo, reachable_status_invariant demoStore reachable_demo⟩

/-! ## C5: shape of the ranking -/

theorem rankLE_trans : ∀ a b c : RankRow,
    rankLE a b = true → rankLE b c = true → rankLE a c = true := by
  intro a b c
  simp only [rankLE, decide_eq_true_eq]
  omega

theorem rankLE_total : ∀ a b : RankRow, (rankLE a b || rankLE b a) = true := by
  intro a b
  simp only [rankLE, Bool.or_eq_true, decide_eq_true_eq]
  omega

/-- C5: the ranking is a permutation of one stat row per stored team
(so every team appears, teams without matches with all-zero stats),
sorted descending lexicographically by (wins, game diff); rows tying on
both keys keep their input order (the sort is stable). -/
theorem compute_ranking_spec (teams : List Team) («matches» : List MusMatch) :
    (compute_ranking teams «matches»).Perm (teams.map (teamRow «matches»)) ∧
    (∀ t ∈ teams, teamRow «matches» t ∈ compute_ranking teams «matches») ∧
    (∀ t ∈ teams, (∀ m ∈ «matches»,
        m.team1_id ≠ t.id ∧ m.team2_id ≠ t.id ∧ m.winner_id ≠ some t.id) →
      (teamRow «matches» t).vacas_ganadas = 0 ∧
      (teamRow «matches» t).diferencia_partidas = 0) ∧
    (compute_ranking teams «matches»).Pairwise (fun a b =>
      b.vacas_ganadas < a.vacas_ganadas ∨
      (b.vacas_ganadas = a.vacas_ganadas ∧
       b.diferencia_partidas ≤ a.diferencia_partidas)) ∧
    (∀ a b : RankRow, [a, b].Sublist (teams.map (teamRow «matches»)) →
      a.vacas_ganadas = b.vacas_ganadas →
      a.diferencia_partidas = b.diferencia_partidas →
      [a, b].Sublist (compute_ranking teams «matches»)) := by
  refine ⟨List.mergeSort_perm _ rankLE, ?_, ?_, ?_, ?_⟩
  · intro t ht
    exact (List.mergeSort_perm (teams.map (teamRow «matches»)) rankLE).mem_iff.mpr
      (List.mem_map_of_mem (teamRow «matches») ht)
  · intro t ht hnone
    have f1 : «matches».filter (fun m =>
        decide (m.winner_id = some t.id ∧ m.status = .completed)) = [] := by
      rw [List.filter_eq_nil_iff]
      intro m hm
      simp only [decide_eq_true_eq, not_and]
      intro hw
      exact absurd hw (hnone m hm).2.2
    have f2 : «matches».filter (fun m =>
        decide (m.team1_id = t.id ∧ m.status = .completed)) = [] := by
      rw [List.filter_eq_nil_iff]
      intro m hm
      simp only [decide_eq_true_eq, not_and]
      intro hw
      exact absurd hw (hnone m hm).1
    have f3 : «matches».filter (fun m =>
        decide (m.team2_id = t.id ∧ m.status = .completed)) = [] := by
      rw [List.filter_eq_nil_iff]
      intro m hm
      simp only [decide_eq_true_eq, not_and]
      intro hw
      exact absurd hw (hnone m hm).2.1
    constructor
    · have hv : (teamRow «matches» t).vacas_ganadas =
          («matches».filter (fun m =>
            decide (m.winner_id = some t.id ∧ m.status = .completed))).length := rfl
      rw [hv, f1]
      rfl
    · have hdiff : (teamRow «matches» t).diferencia_partidas =
          (((«matches».filter (fun m =>
              decide (m.team1_id = t.id ∧ m.status = .completed))).map
                MusMatch.team1_games_won).sum
           + ((«matches».filter (fun m =>
              decide (m.team2_id = t.id ∧ m.status = .completed))).map
                MusMatch.team2_games_won).sum)
          - (((«matches».filter (fun m =>
              decide (m.team1_id = t.id ∧ m.status = .completed))).map
                MusMatch.team2_games_won).sum
           + ((«matches».filter (fun m =>
              decide (m.team2_id = t.id ∧ m.status = .completed))).map
                MusMatch.team1_games_won).sum) := rfl
      rw [hdiff, f2, f3]
      rfl
  · have hs := List.sorted_mergeSort rankLE_trans rankLE_total
      (teams.map (teamRow «matches»))
    exact hs.imp (fun h => by simpa [rankLE, decide_eq_true_eq] using h)
  · intro a b hsub hv hd
    apply List.sublist_mergeSort rankLE_trans rankLE_total ?_ hsub
    constructor
    · intro x hx
      rw [List.mem_singleton] at hx
      subst hx
      simp only [rankLE, decide_eq_true_eq]
      omega
    · exact List.pairwise_singleton _ b

/-- C5 witness: over an empty match list, the first demo team appears
with zero wins and zero game difference. -/
theorem compute_ranking_spec_witness :
    ((⟨1, "A", "a1", "a2"⟩ : Team) ∈ demoStore.teams ∧
     (∀ m ∈ ([] : List MusMatch),
        m.team1_id ≠ 1 ∧ m.team2_id ≠ 1 ∧ m.winner_id ≠ some 1)) ∧
    ((teamRow [] ⟨1, "A", "a1", "a2"⟩).vacas_ganadas = 0 ∧
     (teamRow [] ⟨1, "A", "a1", "a2"⟩).diferencia_partidas = 0) :=
  ⟨⟨by decide, by decide⟩,
    (compute_ranking_spec demoStore.teams []).2.2.1 ⟨1, "A", "a1", "a2"⟩
      (by decide) (by decide)⟩

/-! ## C6: the per-team stat formulas -/

/-- The spec formula for `game_diff`: one pass over all matches, adding
the team's stored counter minus the opponent's for every COMPLETED match
the team participates in (as team1 or team2). -/
def specGameDiff (ms : List MusMatch) (tid : Nat) : Int :=
  (ms.map (fun m =>
    if m.team1_id = tid ∧ m.status = .completed then
      m.team1_games_won - m.team2_games_won
    else if m.team2_id = tid ∧ m.status = .completed then
      m.team2_games_won - m.team1_games_won
    else 0)).sum

theorem interp_ratio_eq (a b : Nat) :
    (s!"{a}/{b}" : String) = toString a ++ "/" ++ toString b := by
  show "" ++ toString a ++ "/" ++ toString b ++ "" = toString a ++ "/" ++ toString b
  simp

theorem gameDiff_single_pass (ms : List MusMatch) (tid : Nat)
    (hdist : ∀ m ∈ ms, m.team1_id ≠ m.team2_id) :
    ((ms.filter (fun m => decide (m.team1_id = tid ∧ m.status = .completed))).map
        MusMatch.team1_games_won).sum
    + ((ms.filter (fun m => decide (m.team2_id = tid ∧ m.status = .completed))).map
        MusMatch.team2_games_won).sum
    - (((ms.filter (fun m => decide (m.team1_id = tid ∧ m.status = .completed))).map
        MusMatch.team2_games_won).sum
    + ((ms.filter (fun m => decide (m.team2_id = tid ∧ m.status = .completed))).map
        MusMatch.team1_games_won).sum)
    = specGameDiff ms tid := by
  induction ms with
  | nil => rfl
  | cons m rest ih =>
    have hd : m.team1_id ≠ m.team2_id := hdist m (List.mem_cons_self m rest)
    have ih' := ih (fun x hx => hdist x (List.mem_cons_of_mem m hx))
    by_cases hp1 : m.team1_id = tid ∧ m.status = .completed
    · have hp2 : ¬ (m.team2_id = tid ∧ m.status = .completed) := by
        rintro ⟨h2, _⟩
        exact hd (by rw [hp1.1, h2])
      have e1 : (m :: rest).filter (fun m =>
          decide (m.team1_id = tid ∧ m.status = .completed)) =
          m :: rest.filter (fun m =>
            decide (m.team1_id = tid ∧ m.status = .completed)) := by
        simp [List.filter_cons, hp1]
      have e2 : (m :: rest).filter (fun m =>
          decide (m.team2_id = tid ∧ m.status = .completed)) =
          rest.filter (fun m =>
            decide (m.team2_id = tid ∧ m.status = .completed)) := by
        simp [List.filter_cons, hp2]
      have e3 : specGameDiff (m :: rest) tid =
          (m.team1_games_won - m.team2_games_won) + specGameDiff rest tid := by
        simp [specGameDiff, hp1]
      rw [e1, e2, e3]
      simp only [List.map_cons, List.sum_cons]
      linarith [ih']
    · by_cases hp2 : m.team2_id = tid ∧ m.status = .completed
      · have e1 : (m :: rest).filter (fun m =>
            decide (m.team1_id = tid ∧ m.status = .completed)) =
            rest.filter (fun m =>
              decide (m.team1_id = tid ∧ m.status = .completed)) := by
          simp [List.filter_cons, hp1]
        have e2 : (m :: rest).filter (fun m =>
            decide (m.team2_id = tid ∧ m.status = .completed)) =
            m :: rest.filter (fun m =>
              decide (m.team2_id = tid ∧ m.status = .completed)) := by
          simp [List.filter_cons, hp2]
        have hn1 : m.team1_id ≠ tid := fun h => hp1 ⟨h, hp2.2⟩
        have e3 : specGameDiff (m :: rest) tid =
            (m.team2_games_won - m.team1_games_won) + specGameDiff rest tid := by
          simp [specGameDiff, hn1, hp2]
        rw [e1, e2, e3]
        simp only [List.map_cons, List.sum_cons]
        linarith [ih']
      · have e1 : (m :: rest).filter (fun m =>
            decide (m.team1_id = tid ∧ m.status = .completed)) =
            rest.filter (fun m =>
              decide (m.team1_id = tid ∧ m.status = .completed)) := by
          simp [List.filter_cons, hp1]
        have e2 : (m :: rest).filter (fun m =>
            decide (m.team2_id = tid ∧ m.status = .completed)) =
            rest.filter (fun m =>
              decide (m.team2_id = tid ∧ m.status = .completed)) := by
          simp [List.filter_cons, hp2]
        have e3 : specGameDiff (m :: rest) tid = 0 + specGameDiff rest tid := by
          simp [specGameDiff, hp1, hp2]
        rw [e1, e2, e3]
        linarith [ih']

/-- C6: provided every match pairs two distinct teams, the ranking row of
a team satisfies the spec formulas: wins counts the COMPLETED matches it
won; game diff is the single-pass sum of own minus opponent counters over
COMPLETED matches it plays in; and the display string is
"completed-count/total-count" over the matches it is in. -/
theorem ranking_row_spec («matches» : List MusMatch) (t : Team)
    (hdist : ∀ m ∈ «matches», m.team1_id ≠ m.team2_id) :
    (teamRow «matches» t).vacas_ganadas =
      «matches».countP (fun m =>
        decide (m.status = .completed ∧ m.winner_id = some t.id)) ∧
    (teamRow «matches» t).diferencia_partidas = specGameDiff «matches» t.id ∧
    (teamRow «matches» t).enfrentamientos =
      toString («matches».countP (fun m =>
        decide ((m.team1_id = t.id ∨ m.team2_id = t.id) ∧ m.status = .completed))) ++
      "/" ++
      toString («matches».countP (fun m =>
        decide (m.team1_id = t.id ∨ m.team2_id = t.id))) := by
  refine ⟨?_, ?_, ?_⟩
  · have hv : (teamRow «matches» t).vacas_ganadas =
        («matches».filter (fun m =>
          decide (m.winner_id = some t.id ∧ m.status = .completed))).length := rfl
    rw [hv, List.countP_eq_length_filter]
    apply congrArg
    apply List.filter_congr
    intro m _
    rw [decide_eq_decide]
    constructor
    · intro h
      exact ⟨h.2, h.1⟩
    · intro h
      exact ⟨h.2, h.1⟩
  · have hdiff : (teamRow «matches» t).diferencia_partidas =
        (((«matches».filter (fun m =>
            decide (m.team1_id = t.id ∧ m.status = .completed))).map
              MusMatch.team1_games_won).sum
         + ((«matches».filter (fun m =>
            decide (m.team2_id = t.id ∧ m.status = .completed))).map
              MusMatch.team2_games_won).sum)
        - (((«matches».filter (fun m =>
            decide (m.team1_id = t.id ∧ m.status = .completed))).map
              MusMatch.team2_games_won).sum
         + ((«matches».filter (fun m =>
            decide (m.team2_id = t.id ∧ m.status = .completed))).map
              MusMatch.team1_games_won).sum) := rfl
    rw [hdiff]
    exact gameDiff_single_pass «matches» t.id hdist
  · have hstr : (teamRow «matches» t).enfrentamientos =
        toString ((«matches».filter (fun m =>
          decide ((m.team1_id = t.id ∨ m.team2_id = t.id) ∧
            m.status = .completed))).length) ++ "/" ++
        toString ((«matches».filter (fun m =>
          decide (m.team1_id = t.id ∨ m.team2_id = t.id))).length) := by
      exact interp_ratio_eq _ _
    rw [hstr, List.countP_eq_length_filter, List.countP_eq_length_filter]

/-- A completed 3–1 match between teams 1 and 2, for the C6 witness. -/
def demoResultMatch : MusMatch :=
  { id := 1, team1_id := 1, team2_id := 2, team1_games_won := 3,
    team2_games_won := 1, status := .completed, winner_id := some 1,
    completed_at := some 5 }

/-- C6 witness: for team 1 in a store holding one completed 3–1 match
between teams 1 and 2, the row satisfies all three spec formulas. -/
theorem ranking_row_spec_witness :
    (∀ m ∈ [demoResultMatch], m.team1_id ≠ m.team2_id) ∧
    ((teamRow [demoResultMatch] ⟨1, "A", "a1", "a2"⟩).vacas_ganadas =
      List.countP (fun m =>
        decide (m.status = .completed ∧ m.winner_id = some (1 : Nat)))
        [demoResultMatch] ∧
     (teamRow [demoResultMatch] ⟨1, "A", "a1", "a2"⟩).diferencia_partidas =
      specGameDiff [demoResultMatch] 1 ∧
     (teamRow [demoResultMatch] ⟨1, "A", "a1", "a2"⟩).enfrentamientos =
      toString (List.countP (fun m =>
        decide ((m.team1_id = 1 ∨ m.team2_id = 1) ∧ m.status = .completed))
        [demoResultMatch]) ++ "/" ++
      toString (List.countP (fun m =>
        decide (m.team1_id = 1 ∨ m.team2_id = 1)) [demoResultMatch])) :=
  ⟨by decide, ranking_row_spec [demoResultMatch] ⟨1, "A", "a1", "a2"⟩ (by decide)⟩

end TorneoMus
